import Mathlib

/-!
Verification of the tool capability registry of this repository
(`src/security_tools.rs`) against its natural-language specification.

The Rust module is shallowly embedded below.  External effects are made
explicit parameters:

* the operating system's reaction to spawning a child process is an oracle
  `os : Invocation → Except String ProcOutput` (`Except.error e` models a
  launch failure with raw error text `e`, `Except.ok` a completed process
  with exit status and captured stdout/stderr);
* the filesystem handed to discovery is a value (`Option (List DirEntry)`,
  `none` modelling an unreadable directory), and the JSON metadata parser
  (serde_json, external to this module) is a parameter
  `parse : String → Option ToolMetadata`;
* the `HashMap<String, SecurityTool>` is an association list with its key
  uniqueness carried as a hypothesis where a proof needs it; its
  nondeterministic iteration order is modelled by the list order.

Machine integers do not overflow in any of the embedded code paths
(lengths and timeouts are only formatted), so `Nat`/`Int` are used directly.
-/

/-- A fragment of serde_json values, enough for the parameter objects the
tool wrappers receive (`Value::get`, `as_str`, `as_array`). -/
inductive Json where
  | null : Json
  | bool (b : Bool) : Json
  | num (n : Int) : Json
  | str (s : String) : Json
  | arr (xs : List Json) : Json
  | obj (fields : List (String × Json)) : Json

/-- serde_json `Value::get(key)` on an object (object keys are unique in
serde_json's map; lookup returns the entry for `key` if any). -/
def Json.get (v : Json) (key : String) : Option Json :=
  match v with
  | .obj fields => (fields.find? (fun p => decide (p.1 = key))).map (fun p => p.2)
  | _ => none

/-- serde_json `Value::as_str`. -/
def Json.asStr : Json → Option String
  | .str s => some s
  | _ => none

/-- serde_json `Value::as_array`. -/
def Json.asArr : Json → Option (List Json)
  | .arr xs => some xs
  | _ => none

/-- ASCII lowercasing of one character, as Rust's byte-wise
`eq_ignore_ascii_case` applies it (non-ASCII characters untouched). -/
def asciiLowerChar (c : Char) : Char :=
  if 'A' ≤ c ∧ c ≤ 'Z' then Char.ofNat (c.toNat + 32) else c

/-- Rust `str::eq_ignore_ascii_case`: equality after per-character ASCII
lowercasing (on ASCII strings this is exactly Rust's byte-wise rule). -/
def eqIgnoreAsciiCase (a b : String) : Bool :=
  decide (a.data.map asciiLowerChar = b.data.map asciiLowerChar)

/-- Rust `{:?}` (Debug) formatting of a vector of strings, for strings that
need no escaping, e.g. `["a", "b"]`; used verbatim by the error and denial
messages of the Rust module. -/
def listDebug (xs : List String) : String :=
  "[" ++ String.intercalate (", ") (xs.map (fun s => "\"" ++ s ++ "\"")) ++ "]"

/-- Rust `bool` Display. -/
def boolDisplay (b : Bool) : String :=
  if b then "true" else "false"

/-- `SecurityCategory` from src/security_tools.rs. -/
inductive SecurityCategory where
  | network | process | rootkit | hardening | filesystem | general
deriving DecidableEq

/-- The `Display` impl of `SecurityCategory`. -/
def SecurityCategory.display : SecurityCategory → String
  | .network => "network"
  | .process => "process"
  | .rootkit => "rootkit"
  | .hardening => "hardening"
  | .filesystem => "filesystem"
  | .general => "general"

/-- `ToolArg` from src/security_tools.rs. -/
structure ToolArg where
  name : String
  description : String
  required : Bool
  default : Option String
deriving DecidableEq

/-- `ToolMetadata` from src/security_tools.rs (the fields of a parsed
`tool.json`; serde defaults already applied by the parser). -/
structure ToolMetadata where
  name : String
  description : String
  category : SecurityCategory
  tags : List String
  args : List ToolArg
  requires_sudo : Bool
  timeout_secs : Option Nat
deriving DecidableEq

/-- `SecurityTool` from src/security_tools.rs.  `command_path` is the path
string (PathBuf). -/
structure SecurityTool where
  id : String
  name : String
  description : String
  category : SecurityCategory
  tags : List String
  command_path : String
  requires_sudo : Bool
  timeout_secs : Option Nat
  args : List ToolArg
deriving DecidableEq

/-- Modelled from the spec: the crate's `ToolOutput` (ExecutionResult, spec
section 3: succeeded flag, content string, optional error message) lives in
src/tools.rs, which is not among the sources; its three constructors used
here (`success`, `failure`, `failure_with_content`) follow the spec's
reading of them. -/
structure ToolOutput where
  success : Bool
  content : String
  error : Option String
deriving DecidableEq

/-- `ToolOutput::success(content)`. -/
def ToolOutput.mkSuccess (content : String) : ToolOutput :=
  { success := true, content := content, error := none }

/-- `ToolOutput::failure(message)`: a failed result with no captured
content. -/
def ToolOutput.mkFailure (message : String) : ToolOutput :=
  { success := false, content := "", error := some message }

/-- `ToolOutput::failure_with_content(content, message)`. -/
def ToolOutput.failureWithContent (content message : String) : ToolOutput :=
  { success := false, content := content, error := some message }

/-- Modelled from the spec: the crate error type (src/error.rs is not among
the sources).  Spec section 7 requires dispatch errors to be typed values
distinct from results; `tool_execution` carries the failing tool id and a
message, `InvalidInput` a message. -/
inductive Error where
  | toolExecution (tool_id : String) (message : String) : Error
  | invalidInput (message : String) : Error
deriving DecidableEq

/-- One child-process invocation: the program handed to `Command::new` and
the argument vector accumulated by `.arg`/`.args` (a literal vector, never a
shell string). -/
structure Invocation where
  program : String
  args : List String
deriving DecidableEq

/-- The observable outcome of a completed child process: exit status (0 =
success, mirroring `ExitStatus::success`) and the captured stdout/stderr
(after `from_utf8_lossy`). -/
structure ProcOutput where
  status : Int
  stdout : String
  stderr : String
deriving DecidableEq

/-- Unix `Display` of an `ExitStatus` for a normally exited process, as
interpolated by `format!("Tool exited with status: {}", output.status)`. -/
def statusDisplay (status : Int) : String :=
  "exit status: " ++ toString status

/-- The command line built by `SecurityTool::execute` (lines 102-122):
sudo wrapping first, a declared timeout nested inside it (`sudo timeout N
path`), a bare timeout wrapper otherwise, the tool path alone else; the
caller's arguments are appended verbatim by `cmd.args(args)`. -/
def SecurityTool.invocation (t : SecurityTool) (args : List String) : Invocation :=
  if t.requires_sudo then
    { program := "sudo",
      args := (match t.timeout_secs with
               | some n => ["timeout", toString n, t.command_path]
               | none => [t.command_path]) ++ args }
  else
    match t.timeout_secs with
    | some n => { program := "timeout", args := [toString n, t.command_path] ++ args }
    | none => { program := t.command_path, args := args }

/-- The content-assembly rule of `SecurityTool::execute` (lines 129-135). -/
def assembleContent (stdout stderr : String) : String :=
  if stdout = "" ∧ ¬ stderr = "" then "STDERR:\n" ++ stderr
  else if ¬ stderr = "" then stdout ++ "\n\nSTDERR:\n" ++ stderr
  else stdout

/-- `SecurityTool::execute` (lines 102-148): build the invocation, hand it
to the operating system, assemble content, map exit status to the success
flag; a launch failure becomes a plain failed output carrying the raw
error. -/
def SecurityTool.execute (t : SecurityTool)
    (os : Invocation → Except String ProcOutput) (args : List String) : ToolOutput :=
  match os (t.invocation args) with
  | .ok output =>
      let content := assembleContent output.stdout output.stderr
      if output.status = 0 then
        ToolOutput.mkSuccess content
      else
        ToolOutput.failureWithContent content
          ("Tool exited with status: " ++ statusDisplay output.status)
  | .error e => ToolOutput.mkFailure ("Failed to execute tool: " ++ e)

/-- `SecurityToolRegistry` from src/security_tools.rs.  The tool map is an
association list from id to tool; `parallel_semaphore` models
`Option<Arc<Semaphore>>` by the number of permits the semaphore was created
with (`none` = no limiter). -/
structure SecurityToolRegistry where
  tools_dir : String
  tools : List (String × SecurityTool)
  parallel_semaphore : Option Nat

/-- `SecurityToolRegistry::with_parallel_execution` (lines 201-205). -/
def SecurityToolRegistry.with_parallel_execution
    (r : SecurityToolRegistry) (max_concurrent : Nat) : SecurityToolRegistry :=
  { r with parallel_semaphore := some max_concurrent }

/-- `SecurityToolRegistry::is_parallel`. -/
def SecurityToolRegistry.is_parallel (r : SecurityToolRegistry) : Bool :=
  r.parallel_semaphore.isSome

/-- `SecurityToolRegistry::semaphore`: hands the limiter out to callers. -/
def SecurityToolRegistry.semaphore (r : SecurityToolRegistry) : Option Nat :=
  r.parallel_semaphore

/-- `SecurityToolRegistry::by_tags` (lines 345-358): the sentinel "all"
(case-insensitively) yields every tool; otherwise a tool is kept iff it
shares at least one tag, case-insensitively, with the requested set. -/
def SecurityToolRegistry.by_tags (r : SecurityToolRegistry) (tags : List String) :
    List SecurityTool :=
  if tags.any (fun t => eqIgnoreAsciiCase t ("all")) then
    r.tools.map Prod.snd
  else
    (r.tools.map Prod.snd).filter
      (fun tool => tool.tags.any
        (fun tool_tag => tags.any (fun filter_tag => eqIgnoreAsciiCase tool_tag filter_tag)))

/-- The "not found" message of `SecurityToolRegistry::execute` (lines
416-421). -/
def notFoundMessage (tool_id : String) (known : List String) : String :=
  "Tool \x27" ++ tool_id ++ "\x27 not found. Available tools: " ++ listDebug known

/-- `SecurityToolRegistry::execute` (lines 414-424): look the id up in the
tool map; unknown ids are a structured error naming the id and the known
ids; a found tool is executed.  Note that `parallel_semaphore` is not
consulted anywhere on this path. -/
def SecurityToolRegistry.execute (r : SecurityToolRegistry)
    (os : Invocation → Except String ProcOutput) (tool_id : String)
    (args : List String) : Except Error ToolOutput :=
  match r.tools.find? (fun p => decide (p.1 = tool_id)) with
  | none => .error (.toolExecution tool_id (notFoundMessage tool_id (r.tools.map Prod.fst)))
  | some p => .ok (p.2.execute os args)

/-- The child processes one `SecurityToolRegistry::execute` call spawns:
`SecurityTool::execute` calls `Command::output` exactly once (line 124), and
the registry reaches it exactly when the id lookup succeeds; no other code
path spawns.  The spawn set does not depend on `parallel_semaphore`. -/
def SecurityToolRegistry.spawnsOf (r : SecurityToolRegistry) (tool_id : String)
    (args : List String) : List Invocation :=
  match r.tools.find? (fun p => decide (p.1 = tool_id)) with
  | none => []
  | some p => [p.2.invocation args]

/-- An entry of the tools directory as discovery sees it.  For a
sub-directory: whether `Cargo.toml` exists, the readable content of its
`tool.json` (none = missing or unreadable), and whether the release/debug
build outputs exist.  For a regular file: whether it is executable
(`is_executable`, an OS permission probe) and the readable content of its
sidecar `<stem>.json`. -/
inductive DirEntry where
  | subdir (dirName : String) (hasCargoToml : Bool) (sidecar : Option String)
      (releaseBinaryExists : Bool) (debugBinaryExists : Bool) : DirEntry
  | file (fileName : String) (executable : Bool) (sidecar : Option String) : DirEntry

/-- `SecurityToolRegistry::read_metadata` (lines 298-305): a missing or
unreadable file and an unparseable one all collapse to `none`. -/
def SecurityToolRegistry.read_metadata (parse : String → Option ToolMetadata)
    (sidecar : Option String) : Option ToolMetadata :=
  match sidecar with
  | none => none
  | some content => parse content

/-- Rust `str::trim_end_matches` on character lists: repeatedly strip the
suffix while it matches.  Fuel is the list length, enough for every
iteration (each strips at least one character of a nonempty suffix). -/
def trimEndAux : Nat → List Char → List Char → List Char
  | 0, l, _ => l
  | fuel + 1, l, suf =>
      if ¬ suf = [] ∧ suf.isSuffixOf l then
        trimEndAux fuel (l.take (l.length - suf.length)) suf
      else l

/-- Rust `str::trim_end_matches`. -/
def trimEndMatches (s suffix : String) : String :=
  ⟨trimEndAux s.data.length s.data suffix.data⟩

/-- The default display name synthesized from an id:
`id.replace('-', " ").replace('_', " ")`. -/
def replaceSeparators (s : String) : String :=
  ⟨s.data.map (fun c => if c = '-' ∨ c = '_' then ' ' else c)⟩

/-- Rust `Path::file_stem` on a plain file name: everything before the last
dot; the whole name when there is no dot or when the only dot leads the
name. -/
def takeBeforeLastDot : List Char → Option (List Char)
  | [] => none
  | c :: rest =>
      match takeBeforeLastDot rest with
      | some tail => some (c :: tail)
      | none => if c = '.' then some [] else none

/-- Rust `Path::file_stem` of a file name. -/
def fileStem (name : String) : String :=
  match takeBeforeLastDot name.data with
  | none => name
  | some [] => name
  | some l => ⟨l⟩

/-- The runnable-target probe of `discover_mcp_tool` (lines 233-243):
release build output, then debug, then the package directory itself. -/
def mcpCommandPath (dirPath id : String) (releaseBinaryExists debugBinaryExists : Bool) :
    String :=
  if releaseBinaryExists then dirPath ++ "/target/release/" ++ id
  else if debugBinaryExists then dirPath ++ "/target/debug/" ++ id
  else dirPath

/-- `SecurityToolRegistry::discover_mcp_tool` (lines 218-260): requires a
`Cargo.toml`; id is the directory name with a trailing "-mcp" stripped;
every metadata field falls back to a default synthesized from the id when
the sidecar is missing or unparseable. -/
def SecurityToolRegistry.discover_mcp_tool (parse : String → Option ToolMetadata)
    (tools_dir dirName : String) (hasCargoToml : Bool) (sidecar : Option String)
    (releaseBinaryExists debugBinaryExists : Bool) : Option SecurityTool :=
  if ¬ hasCargoToml then none
  else
    let metadata := SecurityToolRegistry.read_metadata parse sidecar
    let id := trimEndMatches dirName ("-mcp")
    let dirPath := tools_dir ++ "/" ++ dirName
    some
      { id := id,
        name := (metadata.map ToolMetadata.name).getD (replaceSeparators id),
        description := (metadata.map ToolMetadata.description).getD
          ("MCP security tool: " ++ id),
        category := (metadata.map ToolMetadata.category).getD .general,
        tags := (metadata.map ToolMetadata.tags).getD [],
        command_path := mcpCommandPath dirPath id releaseBinaryExists debugBinaryExists,
        requires_sudo := (metadata.map ToolMetadata.requires_sudo).getD false,
        timeout_secs := metadata.bind ToolMetadata.timeout_secs,
        args := (metadata.map ToolMetadata.args).getD [] }

/-- The skip rule of `discover_shell_tool` (lines 266-272): setup shell
scripts, markdown, and metadata files themselves are not tools. -/
def skipShellFile (file_name : String) : Bool :=
  ((String.data (".sh")).isSuffixOf file_name.data
      && decide ((String.data ("setup")) <:+: file_name.data))
    || (String.data (".md")).isSuffixOf file_name.data
    || (String.data (".json")).isSuffixOf file_name.data

/-- `SecurityToolRegistry::discover_shell_tool` (lines 263-295): id = file
stem; every metadata field falls back to a default synthesized from the id
when the sidecar is missing or unparseable. -/
def SecurityToolRegistry.discover_shell_tool (parse : String → Option ToolMetadata)
    (tools_dir fileName : String) (sidecar : Option String) : Option SecurityTool :=
  if skipShellFile fileName then none
  else
    let metadata := SecurityToolRegistry.read_metadata parse sidecar
    let id := fileStem fileName
    some
      { id := id,
        name := (metadata.map ToolMetadata.name).getD (replaceSeparators id),
        description := (metadata.map ToolMetadata.description).getD
          ("Security tool: " ++ id),
        category := (metadata.map ToolMetadata.category).getD .general,
        tags := (metadata.map ToolMetadata.tags).getD [],
        command_path := tools_dir ++ "/" ++ fileName,
        requires_sudo := (metadata.map ToolMetadata.requires_sudo).getD false,
        timeout_secs := metadata.bind ToolMetadata.timeout_secs,
        args := (metadata.map ToolMetadata.args).getD [] }

/-- The per-entry outcome of the discovery loop body (lines 172-189):
sub-directories go through `discover_mcp_tool`; regular files only through
`discover_shell_tool` and only when executable. -/
def discoveredTool (parse : String → Option ToolMetadata) (tools_dir : String) :
    DirEntry → Option SecurityTool
  | .subdir dirName hasCargoToml sidecar rel dbg =>
      SecurityToolRegistry.discover_mcp_tool parse tools_dir dirName hasCargoToml sidecar rel dbg
  | .file fileName executable sidecar =>
      if executable then
        SecurityToolRegistry.discover_shell_tool parse tools_dir fileName sidecar
      else none

/-- `HashMap::insert` keyed by the tool's id: replaces an existing entry for
the same id (duplicate ids: last one scanned wins), appends otherwise. -/
def insertTool (m : List (String × SecurityTool)) (t : SecurityTool) :
    List (String × SecurityTool) :=
  if m.any (fun p => decide (p.1 = t.id)) then
    m.map (fun p => if p.1 = t.id then (t.id, t) else p)
  else m ++ [(t.id, t)]

/-- One iteration of the discovery loop: insert the discovered tool, if
any. -/
def discoverStep (parse : String → Option ToolMetadata) (tools_dir : String)
    (acc : List (String × SecurityTool)) (e : DirEntry) : List (String × SecurityTool) :=
  match discoveredTool parse tools_dir e with
  | some t => insertTool acc t
  | none => acc

/-- `SecurityToolRegistry::discover` (lines 167-199): an unreadable
directory (`read_dir` fails, modelled by `none`) yields an empty registry;
otherwise every entry is folded through the loop body.  Discovery always
returns a registry, never an error, and the limiter starts absent. -/
def SecurityToolRegistry.discover (parse : String → Option ToolMetadata)
    (tools_dir : String) (listing : Option (List DirEntry)) : SecurityToolRegistry :=
  match listing with
  | none => { tools_dir := tools_dir, tools := [], parallel_semaphore := none }
  | some entries =>
      { tools_dir := tools_dir,
        tools := entries.foldl (discoverStep parse tools_dir) [],
        parallel_semaphore := none }

/-- `TaggedListSecurityTools` (lines 642-652): a live `(registry, tag set)`
pair, not a copy of tools. -/
structure TaggedListSecurityTools where
  registry : SecurityToolRegistry
  tags : List String

/-- `TaggedRunSecurityTool` (lines 730-740). -/
structure TaggedRunSecurityTool where
  registry : SecurityToolRegistry
  tags : List String

/-- The category-name parsing of the list tools' `execute` (lines
683-694): an unknown name yields no filter. -/
def parseCategoryName (s : String) : Option SecurityCategory :=
  match s with
  | "network" => some .network
  | "process" => some .process
  | "rootkit" => some .rootkit
  | "hardening" => some .hardening
  | "filesystem" => some .filesystem
  | "general" => some .general
  | _ => none

/-- The enumeration `TaggedListSecurityTools::execute` builds its listing
from (lines 696-703): the tag projection of the registry, recomputed on the
call, then narrowed by the category filter if one was given. -/
def TaggedListSecurityTools.visibleTools (t : TaggedListSecurityTools)
    (category_filter : Option SecurityCategory) : List SecurityTool :=
  let tools := t.registry.by_tags t.tags
  match category_filter with
  | some cat => tools.filter (fun tool => decide (tool.category = cat))
  | none => tools

/-- One listing entry of the tag-scoped list output (lines 713-723). -/
def toolListingEntry (tool : SecurityTool) : String :=
  let tags_str :=
    if tool.tags = [] then ""
    else "\n  Tags: " ++ String.intercalate (", ") tool.tags
  "• " ++ tool.name ++ " (id: \x27" ++ tool.id ++ "\x27)\n  Category: "
    ++ tool.category.display ++ "\n  Description: " ++ tool.description
    ++ "\n  Sudo: " ++ boolDisplay tool.requires_sudo ++ tags_str ++ "\n\n"

/-- `TaggedListSecurityTools::execute` (lines 682-726). -/
def TaggedListSecurityTools.execute (t : TaggedListSecurityTools) (params : Json) :
    Except Error ToolOutput :=
  let category_filter := ((params.get ("category")).bind Json.asStr).bind parseCategoryName
  let tools := t.visibleTools category_filter
  if tools.isEmpty then
    .ok (ToolOutput.mkSuccess
      ("No security tools found matching tags: " ++ listDebug t.tags))
  else
    .ok (ToolOutput.mkSuccess
      ("Found " ++ toString tools.length ++ " security tools:\n\n"
        ++ String.join (tools.map toolListingEntry)))

/-- The capability test of `TaggedRunSecurityTool::execute` (lines
784-787): the tag-filtered set is recomputed from the registry on the call,
and the requested id must name a member of it. -/
def TaggedRunSecurityTool.accepts (t : TaggedRunSecurityTool) (tool_id : String) : Bool :=
  (t.registry.by_tags t.tags).any (fun tool => decide (tool.id = tool_id))

/-- The capability-denial message of `TaggedRunSecurityTool::execute`
(lines 788-792). -/
def notAvailableMessage (tool_id : String) (tags : List String) : String :=
  "Tool \x27" ++ tool_id ++ "\x27 is not available with current tags: "
    ++ listDebug tags ++ ". Use list_security_tools to see available tools."

/-- The `args` extraction shared by the run tools (lines 795-803):
the optional array parameter, keeping only its string elements. -/
def runArgsOf (params : Json) : List String :=
  (((params.get ("args")).bind Json.asArr).map
    (fun arr => arr.filterMap Json.asStr)).getD []

/-- `TaggedRunSecurityTool::execute` (lines 777-808): a missing `tool_id`
is a caller-input error; an id outside the freshly recomputed tag scope
resolves to a plain failed output (an `Ok`, not an error) without touching
the registry's execute; a member id is dispatched to it. -/
def TaggedRunSecurityTool.execute (t : TaggedRunSecurityTool)
    (os : Invocation → Except String ProcOutput) (params : Json) :
    Except Error ToolOutput :=
  match (params.get ("tool_id")).bind Json.asStr with
  | none => .error (.invalidInput ("Missing \x27tool_id\x27 parameter"))
  | some tool_id =>
      if t.accepts tool_id then
        t.registry.execute os tool_id (runArgsOf params)
      else
        .ok (ToolOutput.mkFailure (notAvailableMessage tool_id t.tags))

/-- The child processes one `TaggedRunSecurityTool::execute` call spawns:
the registry's execute (the only spawning call) is reached exactly when the
id parses and passes the capability test. -/
def TaggedRunSecurityTool.spawnsOf (t : TaggedRunSecurityTool) (params : Json) :
    List Invocation :=
  match (params.get ("tool_id")).bind Json.asStr with
  | none => []
  | some tool_id =>
      if t.accepts tool_id then t.registry.spawnsOf tool_id (runArgsOf params)
      else []

/-- A concrete discovered tool used by the witnesses: a plain executable
tagged "security_tools". -/
def demoTool : SecurityTool :=
  { id := "t1", name := "t1", description := "Security tool: t1",
    category := .general, tags := ["security_tools"],
    command_path := "/tools/t1", requires_sudo := false,
    timeout_secs := none, args := [] }

/-- A concrete registry holding `demoTool` under its id. -/
def demoRegistry : SecurityToolRegistry :=
  { tools_dir := "/tools", tools := [("t1", demoTool)], parallel_semaphore := none }

/-- A concrete tool tagged "dev_tools" (for the case-insensitive matching
witness). -/
def devTool : SecurityTool :=
  { id := "scan", name := "scan", description := "Security tool: scan",
    category := .network, tags := ["dev_tools"],
    command_path := "/tools/scan", requires_sudo := false,
    timeout_secs := none, args := [] }

/-- A concrete registry holding `devTool`. -/
def devRegistry : SecurityToolRegistry :=
  { tools_dir := "/tools", tools := [("scan", devTool)], parallel_semaphore := none }

/-- A concrete sudo-and-timeout tool (for the invocation-shape witness). -/
def sudoTool : SecurityTool :=
  { id := "priv", name := "priv", description := "Security tool: priv",
    category := .hardening, tags := ["security_tools"],
    command_path := "/tools/priv", requires_sudo := true,
    timeout_secs := some 30, args := [] }

/-- An operating-system oracle whose every spawn succeeds quietly. -/
def demoOs : Invocation → Except String ProcOutput :=
  fun _ => .ok { status := 0, stdout := "ok", stderr := "" }

/-- An oracle producing only stderr, with exit status 0. -/
def stderrOs : Invocation → Except String ProcOutput :=
  fun _ => .ok { status := 0, stdout := "", stderr := "boom" }

/-- An oracle producing both streams and a nonzero exit status. -/
def failOs : Invocation → Except String ProcOutput :=
  fun _ => .ok { status := 2, stdout := "partial", stderr := "warn" }

/-- An oracle whose every launch fails with a raw OS error. -/
def launchErrOs : Invocation → Except String ProcOutput :=
  fun _ => .error "No such file or directory (os error 2)"

/-- Concrete run parameters requesting tool id "t1" with no arguments. -/
def demoRunParams : Json :=
  .obj [("tool_id", .str "t1")]

/-- Every tool `by_tags` returns comes from the registry's tool map. -/
theorem by_tags_subset (r : SecurityToolRegistry) (tags : List String) :
    ∀ tool ∈ r.by_tags tags, tool ∈ r.tools.map Prod.snd := by
  intro tool h
  unfold SecurityToolRegistry.by_tags at h
  split at h
  · exact h
  · exact List.mem_of_mem_filter h

/-- Under the registry invariants (keys are unique and each entry's tool
carries its key as id), the tools of the map have pairwise distinct ids. -/
theorem values_id_injective (r : SecurityToolRegistry)
    (hkeys : (r.tools.map Prod.fst).Nodup)
    (hid : ∀ p ∈ r.tools, (Prod.snd p).id = Prod.fst p) :
    ∀ a ∈ r.tools.map Prod.snd, ∀ b ∈ r.tools.map Prod.snd, a.id = b.id → a = b := by
  have hmap : (r.tools.map Prod.snd).map SecurityTool.id = r.tools.map Prod.fst := by
    rw [List.map_map]
    exact List.map_congr_left hid
  have hnodup : ((r.tools.map Prod.snd).map SecurityTool.id).Nodup := by
    rw [hmap]; exact hkeys
  exact fun a ha b hb hab => List.inj_on_of_nodup_map hnodup ha hb hab

/-- C4: `by_tags` with a requested set containing the sentinel "all"
(case-insensitively) returns every tool of the registry regardless of the
other requested tags; otherwise it returns exactly the tools sharing at
least one tag, case-insensitively, with the requested set. -/
theorem by_tags_spec (r : SecurityToolRegistry) (tags : List String) :
    ((tags.any fun t => eqIgnoreAsciiCase t ("all")) = true →
      r.by_tags tags = r.tools.map Prod.snd) ∧
    ((tags.any fun t => eqIgnoreAsciiCase t ("all")) = false →
      ∀ tool, tool ∈ r.by_tags tags ↔
        tool ∈ r.tools.map Prod.snd ∧
          ∃ tool_tag ∈ tool.tags, ∃ filter_tag ∈ tags,
            eqIgnoreAsciiCase tool_tag filter_tag = true) := by
  constructor
  · intro h
    unfold SecurityToolRegistry.by_tags
    simp [h]
  · intro h tool
    unfold SecurityToolRegistry.by_tags
    simp [h, List.mem_filter, List.any_eq_true]

/-- C4 witness: a view built with tag "Dev_Tools" matches a tool tagged
"dev_tools". -/
theorem by_tags_spec_witness :
    devTool ∈ devRegistry.by_tags (["Dev_Tools"]) :=
  ((by_tags_spec devRegistry (["Dev_Tools"])).2 (by decide) devTool).mpr
    ⟨by decide, by decide⟩

/-- C10: with a requested set not containing "all" (case-insensitively), a
tool whose own tags list is empty is never returned by `by_tags`; an empty
requested set matches no tool at all; and a shell tool discovered with a
missing or unparseable sidecar has exactly that empty default tags list. -/
theorem empty_tags_invisible (r : SecurityToolRegistry) (tags : List String) :
    ((tags.any fun t => eqIgnoreAsciiCase t ("all")) = false →
      ∀ tool ∈ r.by_tags tags, ¬ tool.tags = []) ∧
    r.by_tags [] = [] ∧
    (∀ parse tools_dir fileName sidecar,
      skipShellFile fileName = false →
      SecurityToolRegistry.read_metadata parse sidecar = none →
      (SecurityToolRegistry.discover_shell_tool parse tools_dir fileName sidecar).map
          SecurityTool.tags = some []) := by
  refine ⟨?_, ?_, ?_⟩
  · intro h tool hmem hempty
    unfold SecurityToolRegistry.by_tags at hmem
    rw [if_neg (by simp [h])] at hmem
    have hany := (List.mem_filter.mp hmem).2
    rw [hempty] at hany
    simp at hany
  · unfold SecurityToolRegistry.by_tags
    simp
  · intro parse tools_dir fileName sidecar hskip hmeta
    unfold SecurityToolRegistry.discover_shell_tool
    rw [if_neg (by simp [hskip])]
    simp [hmeta]

/-- C10 witness: the tool of the demo registry is tag-visible only because
its tags list is nonempty. -/
theorem empty_tags_invisible_witness : ¬ demoTool.tags = [] :=
  (empty_tags_invisible demoRegistry (["security_tools"])).1 (by decide)
    demoTool (by decide)

/-- C3: for every registry satisfying the tool-map invariants and every
tool of it, the tag-scoped list enumeration (no category filter) contains
the tool if and only if the tag-scoped run operation's capability test
accepts its id — both are the `by_tags` projection of the same registry and
tag set, recomputed at each call. -/
theorem list_run_membership_agree (r : SecurityToolRegistry) (tags : List String)
    (tool : SecurityTool)
    (hkeys : (r.tools.map Prod.fst).Nodup)
    (hid : ∀ p ∈ r.tools, (Prod.snd p).id = Prod.fst p)
    (hmem : tool ∈ r.tools.map Prod.snd) :
    tool ∈ TaggedListSecurityTools.visibleTools
        (TaggedListSecurityTools.mk r tags) none ↔
      TaggedRunSecurityTool.accepts (TaggedRunSecurityTool.mk r tags) tool.id = true := by
  unfold TaggedListSecurityTools.visibleTools TaggedRunSecurityTool.accepts
  constructor
  · intro h
    rw [List.any_eq_true]
    exact ⟨tool, h, by simp⟩
  · intro h
    rw [List.any_eq_true] at h
    obtain ⟨t', ht', heq⟩ := h
    have hid' : t'.id = tool.id := by simpa using heq
    have hsub := by_tags_subset r tags t' ht'
    have heqt : t' = tool := values_id_injective r hkeys hid t' hsub tool hmem hid'
    rwa [heqt] at ht'

/-- C3 witness: list and run agree on the demo registry's tool under its
own tag scope. -/
theorem list_run_membership_agree_witness :
    demoTool ∈ TaggedListSecurityTools.visibleTools
        (TaggedListSecurityTools.mk demoRegistry (["security_tools"])) none ↔
      TaggedRunSecurityTool.accepts
        (TaggedRunSecurityTool.mk demoRegistry (["security_tools"])) demoTool.id = true :=
  list_run_membership_agree demoRegistry (["security_tools"]) demoTool
    (by decide) (by decide) (by decide)

/-- C1: the tag-scoped run operation recomputes the tag projection on each
call (its capability test is `by_tags` of the live registry); a requested
id failing that test — for any registry, including one whose tool map does
contain the id — yields a plain failed `ToolOutput` inside `Ok`, not an
error, with no process spawned and no dependence on the operating system;
an id passing it is dispatched to the registry's execute. -/
theorem tagged_run_capability_boundary
    (r : SecurityToolRegistry) (tags : List String) (params : Json) (tid : String)
    (hp : (params.get ("tool_id")).bind Json.asStr = some tid) :
    (TaggedRunSecurityTool.accepts (TaggedRunSecurityTool.mk r tags) tid = false →
      (∀ os, TaggedRunSecurityTool.execute (TaggedRunSecurityTool.mk r tags) os params =
          .ok (ToolOutput.mkFailure (notAvailableMessage tid tags))) ∧
      (ToolOutput.mkFailure (notAvailableMessage tid tags)).success = false ∧
      TaggedRunSecurityTool.spawnsOf (TaggedRunSecurityTool.mk r tags) params = []) ∧
    (TaggedRunSecurityTool.accepts (TaggedRunSecurityTool.mk r tags) tid = true →
      ∀ os, TaggedRunSecurityTool.execute (TaggedRunSecurityTool.mk r tags) os params =
          SecurityToolRegistry.execute r os tid (runArgsOf params)) := by
  constructor
  · intro h
    refine ⟨fun os => ?_, rfl, ?_⟩
    · unfold TaggedRunSecurityTool.execute
      rw [hp]
      simp [h]
    · unfold TaggedRunSecurityTool.spawnsOf
      rw [hp]
      simp [h]
  · intro h os
    unfold TaggedRunSecurityTool.execute
    rw [hp]
    simp [h]

/-- C1 witness: the demo registry does contain "t1", yet a view scoped to
"web_tools" resolves running it to a plain failed result. -/
theorem tagged_run_capability_boundary_witness :
    TaggedRunSecurityTool.execute
        (TaggedRunSecurityTool.mk demoRegistry (["web_tools"])) demoOs demoRunParams =
      .ok (ToolOutput.mkFailure (notAvailableMessage ("t1") (["web_tools"]))) :=
  ((tagged_run_capability_boundary demoRegistry (["web_tools"]) demoRunParams ("t1")
      (by decide)).1 (by decide)).1 demoOs

/-- C2: the registry's execute never interacts with the concurrency
limiter.  Both its result and its spawned-process set are invariant under
any change of `parallel_semaphore`; in particular a registry configured
with `with_parallel_execution 0` (zero permits) still spawns a child
process for a known tool, so the configured bound is not enforced — no
permit is ever acquired or released on any path. -/
theorem limiter_never_acquired :
    (demoRegistry.with_parallel_execution 0).parallel_semaphore = some 0 ∧
    (∀ (r : SecurityToolRegistry) (sem : Option Nat)
        (os : Invocation → Except String ProcOutput)
        (tool_id : String) (args : List String),
      SecurityToolRegistry.execute { r with parallel_semaphore := sem } os tool_id args =
          SecurityToolRegistry.execute r os tool_id args ∧
        SecurityToolRegistry.spawnsOf { r with parallel_semaphore := sem } tool_id args =
          SecurityToolRegistry.spawnsOf r tool_id args) ∧
    (demoRegistry.with_parallel_execution 0).spawnsOf ("t1") [] =
      [demoTool.invocation []] := by
  refine ⟨rfl, ?_, by decide⟩
  intro r sem os tool_id args
  exact ⟨rfl, rfl⟩

/-- C8: an id absent from the tool map makes the registry's execute return
a structured "not found" error naming the requested id and listing the
currently known ids — an `Err`, not a `ToolOutput` — independent of the
operating system, and no process is spawned. -/
theorem execute_unknown_id (r : SecurityToolRegistry) (tool_id : String)
    (args : List String)
    (h : ¬ tool_id ∈ r.tools.map Prod.fst) :
    (∀ os, SecurityToolRegistry.execute r os tool_id args =
        .error (.toolExecution tool_id
          (notFoundMessage tool_id (r.tools.map Prod.fst)))) ∧
    r.spawnsOf tool_id args = [] := by
  have hfind : r.tools.find? (fun p => decide (p.1 = tool_id)) = none := by
    rw [List.find?_eq_none]
    intro p hp
    simp only [decide_eq_true_eq]
    intro hq
    exact h (by rw [← hq]; exact List.mem_map_of_mem Prod.fst hp)
  constructor
  · intro os
    unfold SecurityToolRegistry.execute
    rw [hfind]
  · unfold SecurityToolRegistry.spawnsOf
    rw [hfind]

/-- C8 witness: asking the demo registry for an unknown id. -/
theorem execute_unknown_id_witness :
    demoRegistry.execute demoOs ("nope") [] =
      .error (.toolExecution ("nope")
        (notFoundMessage ("nope") (demoRegistry.tools.map Prod.fst))) :=
  (execute_unknown_id demoRegistry ("nope") [] (by decide)).1 demoOs

/-- C5: when the process launches, the result content follows the fixed
rule — only-stderr output is reported under a stderr label with no stdout
section, both streams yield stdout followed by a labeled stderr block, and
a quiet stderr yields stdout alone. -/
theorem content_assembly_rule (t : SecurityTool)
    (os : Invocation → Except String ProcOutput) (args : List String)
    (out : ProcOutput) (h : os (t.invocation args) = .ok out) :
    (out.stdout = "" → ¬ out.stderr = "" →
      (t.execute os args).content = "STDERR:\n" ++ out.stderr) ∧
    (¬ out.stdout = "" → ¬ out.stderr = "" →
      (t.execute os args).content = out.stdout ++ "\n\nSTDERR:\n" ++ out.stderr) ∧
    (out.stderr = "" → (t.execute os args).content = out.stdout) := by
  have hc : (t.execute os args).content = assembleContent out.stdout out.stderr := by
    unfold SecurityTool.execute
    rw [h]
    by_cases hs : out.status = 0 <;>
      simp [hs, ToolOutput.mkSuccess, ToolOutput.failureWithContent]
  refine ⟨fun h1 h2 => ?_, fun h1 h2 => ?_, fun h1 => ?_⟩
  · rw [hc]
    unfold assembleContent
    rw [if_pos ⟨h1, h2⟩]
  · rw [hc]
    unfold assembleContent
    rw [if_neg (fun hcon => h1 hcon.1), if_pos h2]
  · rw [hc]
    unfold assembleContent
    rw [if_neg (fun hcon => hcon.2 h1), if_neg (fun hcon => hcon h1)]

/-- C5 witness: a tool producing only stderr yields the labeled stderr
content. -/
theorem content_assembly_rule_witness :
    (demoTool.execute stderrOs []).content = "STDERR:\nboom" := by
  have h := (content_assembly_rule demoTool stderrOs []
      { status := 0, stdout := "", stderr := "boom" } rfl).1 rfl (by decide)
  exact h.trans (by decide)

/-- C6: with a launched process, the success flag holds exactly for exit
status zero; a nonzero exit still returns the assembled content together
with the failure flag and a message naming the exit status; a launch
failure is a distinct failed result carrying the raw launch error. -/
theorem exit_status_and_launch_failure (t : SecurityTool)
    (os : Invocation → Except String ProcOutput) (args : List String) :
    (∀ out : ProcOutput, os (t.invocation args) = .ok out →
      ((t.execute os args).success = true ↔ out.status = 0) ∧
      (¬ out.status = 0 →
        t.execute os args =
          ToolOutput.failureWithContent (assembleContent out.stdout out.stderr)
            ("Tool exited with status: " ++ statusDisplay out.status))) ∧
    (∀ e, os (t.invocation args) = .error e →
      t.execute os args = ToolOutput.mkFailure ("Failed to execute tool: " ++ e) ∧
      (t.execute os args).success = false) := by
  constructor
  · intro out h
    constructor
    · unfold SecurityTool.execute
      rw [h]
      by_cases hs : out.status = 0 <;>
        simp [hs, ToolOutput.mkSuccess, ToolOutput.failureWithContent]
    · intro hs
      unfold SecurityTool.execute
      rw [h]
      simp [hs]
  · intro e h
    have he : t.execute os args = ToolOutput.mkFailure ("Failed to execute tool: " ++ e) := by
      unfold SecurityTool.execute
      rw [h]
    exact ⟨he, by rw [he]; rfl⟩

/-- C6 witness: a launch failure surfaces the raw OS error. -/
theorem exit_status_and_launch_failure_witness :
    demoTool.execute launchErrOs [] =
      ToolOutput.mkFailure ("Failed to execute tool: No such file or directory (os error 2)") := by
  have h := ((exit_status_and_launch_failure demoTool launchErrOs []).2
      ("No such file or directory (os error 2)") rfl).1
  exact h.trans (by decide)

/-- C7: the invocation is sudo-wrapped when elevation is required, with a
declared timeout nested inside the wrapper; a bare timeout wrapper when
only a timeout is declared; the tool path alone otherwise — and in every
case the caller's arguments are appended verbatim as a literal vector. -/
theorem invocation_shape (t : SecurityTool) (args : List String) :
    (t.requires_sudo = true → t.timeout_secs = none →
      t.invocation args = { program := "sudo", args := [t.command_path] ++ args }) ∧
    (t.requires_sudo = true → ∀ n, t.timeout_secs = some n →
      t.invocation args =
        { program := "sudo", args := ["timeout", toString n, t.command_path] ++ args }) ∧
    (t.requires_sudo = false → ∀ n, t.timeout_secs = some n →
      t.invocation args =
        { program := "timeout", args := [toString n, t.command_path] ++ args }) ∧
    (t.requires_sudo = false → t.timeout_secs = none →
      t.invocation args = { program := t.command_path, args := args }) ∧
    ((t.invocation args).program = (t.invocation []).program ∧
      (t.invocation args).args = (t.invocation []).args ++ args) := by
  refine ⟨?_, ?_, ?_, ?_, ?_⟩
  · intro hs ht
    simp [SecurityTool.invocation, hs, ht]
  · intro hs n ht
    simp [SecurityTool.invocation, hs, ht]
  · intro hs n ht
    simp [SecurityTool.invocation, hs, ht]
  · intro hs ht
    simp [SecurityTool.invocation, hs, ht]
  · constructor <;>
      (by_cases hs : t.requires_sudo <;> cases ht : t.timeout_secs <;>
        simp [SecurityTool.invocation, hs, ht])

/-- C7 witness: an elevated tool with a declared 30-second timeout nests
the timeout inside sudo and appends the caller's arguments verbatim. -/
theorem invocation_shape_witness :
    sudoTool.invocation (["-v"]) =
      { program := "sudo", args := ["timeout", "30", "/tools/priv", "-v"] } := by
  have h := (invocation_shape sudoTool (["-v"])).2.1 rfl 30 rfl
  exact h.trans (by decide)

/-- Folding the discovery step over entries that all discover to nothing
leaves the accumulated map unchanged. -/
theorem foldl_discoverStep_of_none (parse : String → Option ToolMetadata)
    (tools_dir : String) :
    ∀ (entries : List DirEntry) (acc : List (String × SecurityTool)),
      (∀ e ∈ entries, discoveredTool parse tools_dir e = none) →
      entries.foldl (discoverStep parse tools_dir) acc = acc := by
  intro entries
  induction entries with
  | nil => intro acc _; rfl
  | cons e rest ih =>
      intro acc h
      rw [List.foldl_cons]
      have hstep : discoverStep parse tools_dir acc e = acc := by
        unfold discoverStep
        rw [h e (List.mem_cons_self e rest)]
      rw [hstep]
      exact ih acc (fun x hx => h x (List.mem_cons_of_mem e hx))

/-- C9: discovery is total — an unreadable directory and a directory with
zero valid entries both yield an empty registry, not an error; and an entry
whose sidecar metadata is missing or unparseable still becomes a tool, its
fields synthesized from the id, for both shell tools and packaged (MCP)
tools. -/
theorem discovery_never_fails :
    (∀ parse tools_dir,
      SecurityToolRegistry.discover parse tools_dir none =
        { tools_dir := tools_dir, tools := [], parallel_semaphore := none }) ∧
    (∀ parse tools_dir entries,
      (∀ e ∈ entries, discoveredTool parse tools_dir e = none) →
      SecurityToolRegistry.discover parse tools_dir (some entries) =
        { tools_dir := tools_dir, tools := [], parallel_semaphore := none }) ∧
    (∀ parse tools_dir fileName sidecar,
      skipShellFile fileName = false →
      SecurityToolRegistry.read_metadata parse sidecar = none →
      SecurityToolRegistry.discover_shell_tool parse tools_dir fileName sidecar =
        some
          { id := fileStem fileName,
            name := replaceSeparators (fileStem fileName),
            description := "Security tool: " ++ fileStem fileName,
            category := .general, tags := [],
            command_path := tools_dir ++ "/" ++ fileName,
            requires_sudo := false, timeout_secs := none, args := [] }) ∧
    (∀ parse tools_dir dirName sidecar rel dbg,
      SecurityToolRegistry.read_metadata parse sidecar = none →
      SecurityToolRegistry.discover_mcp_tool parse tools_dir dirName true sidecar rel dbg =
        some
          { id := trimEndMatches dirName ("-mcp"),
            name := replaceSeparators (trimEndMatches dirName ("-mcp")),
            description := "MCP security tool: " ++ trimEndMatches dirName ("-mcp"),
            category := .general, tags := [],
            command_path := mcpCommandPath (tools_dir ++ "/" ++ dirName)
              (trimEndMatches dirName ("-mcp")) rel dbg,
            requires_sudo := false, timeout_secs := none, args := [] }) := by
  refine ⟨?_, ?_, ?_, ?_⟩
  · intro parse tools_dir
    rfl
  · intro parse tools_dir entries h
    have hfold := foldl_discoverStep_of_none parse tools_dir entries [] h
    simp [SecurityToolRegistry.discover, hfold]
  · intro parse tools_dir fileName sidecar hskip hmeta
    unfold SecurityToolRegistry.discover_shell_tool
    rw [if_neg (by simp [hskip])]
    simp [hmeta]
  · intro parse tools_dir dirName sidecar rel dbg hmeta
    unfold SecurityToolRegistry.discover_mcp_tool
    simp [hmeta]

/-- C9 witness: a shell tool with no sidecar file at all is discovered with
defaults synthesized from its id. -/
theorem discovery_never_fails_witness :
    SecurityToolRegistry.discover_shell_tool (fun _ => none) ("/tools") ("portlist") none =
      some
        { id := "portlist", name := "portlist",
          description := "Security tool: portlist",
          category := .general, tags := [],
          command_path := "/tools/portlist",
          requires_sudo := false, timeout_secs := none, args := [] } := by
  have h := discovery_never_fails.2.2.1 (fun _ => none) ("/tools") ("portlist") none
    (by decide) rfl
  exact h.trans (by decide)
